import Mathlib

/-!
GL518SM hardware monitor (86Box, `src/device/hwm_gl518sm.c`).

Shallow embedding of the register file of the emulated Genesys Logic GL518SM
chip and of its SMBus handlers, followed by theorems about it.

Conventions of the embedding:

* C machine integers are natural numbers.  A `uint16_t` / `uint8_t` parameter is a
  `Nat` that the caller keeps below `2 ^ 16` / `2 ^ 8`; where C truncates a wider
  `int` result on assignment the embedding writes `% 65536` / `% 256` explicitly.
* `uint16_t regs[32]` is a function `Fin 32 → Nat`; a store is `Function.update`.
* A function that mutates `*dev` returns the new device state.  `gl518sm_write`
  can index `regs` with an unmasked register number, so it returns an `Option`:
  `none` stands for a store outside `regs[0..31]` (undefined behaviour in C).
-/

namespace GL518SM

/-! Section: Macros -/

/-- Macro `#define CLAMP(a, min, max) (((a) < (min)) ? (min) : (((a) > (max)) ? (max) : (a)))` -/
def CLAMP (a lo hi : Nat) : Nat :=
  if a < lo then lo else if a > hi then hi else a

/-- Macro `#define GL518SM_RPM_TO_REG(r, d) ((r) ? CLAMP(480000 / (r * d), 1, 255) : 0)`
for an argument `d` that is a single token (as in `gl518sm_reset`, where `d` is `8`). -/
def GL518SM_RPM_TO_REG (r d : Nat) : Nat :=
  if r ≠ 0 then CLAMP (480000 / (r * d)) 1 255 else 0

/-- Textual expansion of `GL518SM_RPM_TO_REG(r, 1 << n)` as it occurs in
`gl518sm_write`: the macro body does not parenthesise `d`, so `r * d` is
`r * 1 << n`, which C parses as `(r * 1) << n`.  With `r` a `uint16_t` promoted to
`int` and `n ≤ 3` the shift cannot overflow. -/
def GL518SM_RPM_TO_REG_shl (r n : Nat) : Nat :=
  if r ≠ 0 then CLAMP (480000 / ((r * 1) <<< n)) 1 255 else 0

/-- Macro `#define GL518SM_VOLTAGE_TO_REG(v) (((v) / 19) & 0xff)` -/
def GL518SM_VOLTAGE_TO_REG (v : Nat) : Nat :=
  (v / 19) &&& 0xff

/-- Macro `#define GL518SM_VDD_TO_REG(v) ((((v) * 4) / 95) & 0xff)` -/
def GL518SM_VDD_TO_REG (v : Nat) : Nat :=
  ((v * 4) / 95) &&& 0xff

/-- Modelled from the spec: the macro `RESISTOR_DIVIDER` of `86box/hwm.h` is not
among the sources; the spec gives the seeded +12V reading as
`12000 * (4.7 / (15 + 4.7))`, written `RESISTOR_DIVIDER(12000, 150, 47)` in
`gl518sm_init`. -/
def RESISTOR_DIVIDER (v r1 r2 : Nat) : Nat :=
  (v * r2) / (r1 + r2)

/-! Section: Data model -/

/-- Modelled from the spec: the declaration of `hwm_values_t` (`86box/hwm.h`) is not
among the sources.  The sensor source offers fan speeds (rpm, 16-bit unsigned),
temperatures and voltage rails (millivolts), each indexed as a C array. -/
structure hwm_values_t where
  fans : Nat → Nat
  temperatures : Nat → Nat
  voltages : Nat → Nat

/-- The chip instance `gl518sm_t`.  The field `values` is the content of the sensor
source that the pointer `dev->values` refers to.  The C field `local` is spelled
`local_` because `local` is reserved in Lean. -/
structure gl518sm_t where
  local_ : Nat
  values : hwm_values_t
  regs : Fin 32 → Nat
  addr_register : Nat
  smbus_addr : Nat

/-- Modelled from the spec: the SMBus transport (`smbus_sethandler`,
`smbus_removehandler` of `86box/smbus.h`) is not among the sources.  The bus is
the set of slave addresses at which the handler set of this chip is registered. -/
abbrev smbus_t := Finset Nat

/-- Modelled from the spec: register the handler set at address `base`. -/
def smbus_sethandler (bus : smbus_t) (base : Nat) : smbus_t :=
  insert base bus

/-- Modelled from the spec: unregister the handler set from address `base`; nothing
happens when it is not registered there. -/
def smbus_removehandler (bus : smbus_t) (base : Nat) : smbus_t :=
  bus.erase base

/-! Section: Register file -/

/-- The registers that `gl518sm_read` returns as stored (`case 0x07: ... case 0x0c:`). -/
def two_byte (reg : Nat) : Prop :=
  reg = 0x07 ∨ reg = 0x08 ∨ reg = 0x09 ∨ reg = 0x0a ∨ reg = 0x0b ∨ reg = 0x0c

instance (reg : Nat) : Decidable (two_byte reg) := by
  unfold two_byte; infer_instance

/-- The registers for which `gl518sm_write` returns 0 at once
(`case 0x00: case 0x01: case 0x04: case 0x07: case 0x0d: case 0x12: case 0x13:
case 0x14: case 0x15:`). -/
def read_only (reg : Nat) : Prop :=
  reg = 0x00 ∨ reg = 0x01 ∨ reg = 0x04 ∨ reg = 0x07 ∨ reg = 0x0d ∨ reg = 0x12 ∨
    reg = 0x13 ∨ reg = 0x14 ∨ reg = 0x15

instance (reg : Nat) : Decidable (read_only reg) := by
  unfold read_only; infer_instance

/-- Function `gl518sm_read`: the slot is indexed with `reg & 0x1f`, the `switch` looks at the
unmasked `reg`.  `ret |= (ret << 8)` is computed in `int` and truncated to the
`uint16_t` variable `ret`. -/
def gl518sm_read (dev : gl518sm_t) (reg : Nat) : Nat :=
  let ret := dev.regs ⟨reg &&& 0x1f, Nat.and_lt_two_pow reg (by decide : 0x1f < 2 ^ 5)⟩
  if two_byte reg then
    ret
  else
    (ret ||| (ret <<< 8)) % 65536

/-- Function `gl518sm_reset`: `memset` of the register array, then the defaults in source
order. -/
def gl518sm_reset (dev : gl518sm_t) : gl518sm_t :=
  let regs : Fin 32 → Nat := fun _ => 0
  let regs := Function.update regs 0x00 0x80
  let regs := Function.update regs 0x01 0x80
  let regs := Function.update regs 0x04 ((dev.values.temperatures 0 + 119) &&& 0xff)
  let regs := Function.update regs 0x05 0xc7
  let regs := Function.update regs 0x06 0xc2
  let regs := Function.update regs 0x07
    (((GL518SM_RPM_TO_REG (dev.values.fans 0) 8 <<< 8) |||
      GL518SM_RPM_TO_REG (dev.values.fans 1) 8) % 65536)
  let regs := Function.update regs 0x08 0x6464
  let regs := Function.update regs 0x09 0xdac5
  let regs := Function.update regs 0x0a 0xdac5
  let regs := Function.update regs 0x0b 0xdac5
  let regs := Function.update regs 0x0c 0xdac5
  let regs := Function.update regs 0x0d
    ((13 + GL518SM_VOLTAGE_TO_REG (dev.values.voltages 2)) % 65536)
  let regs := Function.update regs 0x0f 0xf8
  let regs := Function.update regs 0x13
    ((13 + GL518SM_VOLTAGE_TO_REG (dev.values.voltages 1)) % 65536)
  let regs := Function.update regs 0x14
    ((13 + GL518SM_VOLTAGE_TO_REG (dev.values.voltages 0)) % 65536)
  let regs := Function.update regs 0x15 ((13 + GL518SM_VDD_TO_REG 5000) % 65536)
  { dev with regs := regs }

/-- Function `gl518sm_write`: returns the `uint8_t` result together with the new state.  The
`switch` looks at the unmasked `reg` and `dev->regs[reg]` is indexed with it; every
`case` label is below 32, so only the `default` branch can leave the array. -/
def gl518sm_write (dev : gl518sm_t) (reg val : Nat) : Option (Nat × gl518sm_t) :=
  if read_only reg then
    some (0, dev)
  else if reg = 0x0a then
    some (1, { dev with regs := Function.update dev.regs 0x13 (val &&& 0xff) })
  else if reg = 0x03 then
    let dev1 := { dev with regs := Function.update dev.regs 0x03 (val &&& 0xfc) }
    let dev2 := if val &&& 0x80 ≠ 0 then gl518sm_reset dev1 else dev1
    some (1, dev2)
  else if reg = 0x0f then
    let regs := Function.update dev.regs 0x0f (val &&& 0xf8)
    let regs := Function.update regs 0x07
      ((GL518SM_RPM_TO_REG_shl (dev.values.fans 0) ((regs 0x0f >>> 6) &&& 0x3) <<< 8) % 65536)
    let regs := Function.update regs 0x07
      ((regs 0x07 ||| GL518SM_RPM_TO_REG_shl (dev.values.fans 1) ((regs 0x0f >>> 4) &&& 0x3))
        % 65536)
    some (1, { dev with regs := regs })
  else if reg = 0x11 then
    some (1, { dev with regs := Function.update dev.regs 0x11 (val &&& 0x7f) })
  else if h : reg < 32 then
    some (1, { dev with regs := Function.update dev.regs ⟨reg, h⟩ val })
  else
    none

/-! Section: SMBus handlers -/

/-- Function `gl518sm_smbus_read_byte`: the `uint16_t` result of `gl518sm_read` is returned as
`uint8_t`. -/
def gl518sm_smbus_read_byte (_addr : Nat) (dev : gl518sm_t) : Nat :=
  gl518sm_read dev dev.addr_register % 256

/-- Function `gl518sm_smbus_read_byte_cmd`, returning `uint8_t`. -/
def gl518sm_smbus_read_byte_cmd (_addr cmd : Nat) (dev : gl518sm_t) : Nat :=
  gl518sm_read dev cmd % 256

/-- Function `gl518sm_smbus_read_word_cmd`, returning `uint16_t`. -/
def gl518sm_smbus_read_word_cmd (_addr cmd : Nat) (dev : gl518sm_t) : Nat :=
  gl518sm_read dev cmd

/-- Function `gl518sm_smbus_write_byte`: latches the selected register. -/
def gl518sm_smbus_write_byte (_addr val : Nat) (dev : gl518sm_t) : gl518sm_t :=
  { dev with addr_register := val }

/-- Function `gl518sm_smbus_write_byte_cmd`: the `uint8_t` value is passed on as `uint16_t`, the
result of `gl518sm_write` is dropped. -/
def gl518sm_smbus_write_byte_cmd (_addr cmd val : Nat) (dev : gl518sm_t) : Option gl518sm_t :=
  (gl518sm_write dev cmd val).map Prod.snd

/-- Function `gl518sm_smbus_write_word_cmd`: the result of `gl518sm_write` is dropped. -/
def gl518sm_smbus_write_word_cmd (_addr cmd val : Nat) (dev : gl518sm_t) : Option gl518sm_t :=
  (gl518sm_write dev cmd val).map Prod.snd

/-! Section: Binding and lifecycle -/

/-- Function `gl518sm_remap`: remove the handlers from the recorded address, register them at
`addr` when `addr < 0x80`, record `addr`. -/
def gl518sm_remap (bus : smbus_t) (dev : gl518sm_t) (addr : Nat) : smbus_t × gl518sm_t :=
  let bus := smbus_removehandler bus dev.smbus_addr
  let bus := if addr < 0x80 then smbus_sethandler bus addr else bus
  (bus, { dev with smbus_addr := addr })

/-- Function `gl518sm_close`: `gl518sm_remap(dev, 0)`; the state is freed afterwards, so only
the bus remains. -/
def gl518sm_close (bus : smbus_t) (dev : gl518sm_t) : smbus_t :=
  (gl518sm_remap bus dev 0).1

/-- The sensor defaults seeded by `gl518sm_init`; `vcore` is the result of
`hwm_get_vcore()`, which is not among the sources.  Entries that the initialiser
leaves out are zero. -/
def defaults (vcore : Nat) : hwm_values_t where
  fans := fun i => if i = 0 then 3000 else if i = 1 then 3000 else 0
  temperatures := fun i => if i = 0 then 30 else 0
  voltages := fun i =>
    if i = 0 then vcore else if i = 1 then RESISTOR_DIVIDER 12000 150 47
    else if i = 2 then 3300 else 0

/-- Function `gl518sm_init`: zeroed state, `local` from the device descriptor, seeded sensor
values, reset, then binding at `local & 0x7f`. -/
def gl518sm_init (bus : smbus_t) (info_local vcore : Nat) : smbus_t × gl518sm_t :=
  let dev : gl518sm_t :=
    { local_ := 0, values := defaults 0, regs := fun _ => 0, addr_register := 0, smbus_addr := 0 }
  let dev := { dev with local_ := info_local }
  let dev := { dev with values := defaults vcore }
  let dev := gl518sm_reset dev
  gl518sm_remap bus dev (dev.local_ &&& 0x7f)

/-- The `local` field of `gl518sm_2c_device`. -/
def gl518sm_2c_device_local : Nat := 0x2c

/-- The `local` field of `gl518sm_2d_device`. -/
def gl518sm_2d_device_local : Nat := 0x2d

/-- The fan encoding as the specification words it:
`rpm_to_reg(rpm, divisor) = clamp(480000 / (rpm * divisor), 1, 255)` when `rpm ≠ 0`, else `0`. -/
def rpm_to_reg (rpm divisor : Nat) : Nat :=
  if rpm = 0 then 0 else max 1 (min (480000 / (rpm * divisor)) 255)

/-- The store mask `m(r)` of the plain-store registers as the specification lists it: 0xFC
for register 0x03, 0x7F for register 0x11, the full slot width otherwise. -/
def write_mask (r : Nat) : Nat :=
  if r = 0x03 then 0xfc else if r = 0x11 then 0x7f else 0xffff

/-- The duplicated form `d(x) = (x & 0xFF) | ((x & 0xFF) << 8)` of the specification. -/
def duplicated (x : Nat) : Nat :=
  (x &&& 0xff) ||| ((x &&& 0xff) <<< 8)

/-- The value that slot `r` holds after a write of `v` to a writable register `r` outside
the two-byte set: the masked value for 0x03 (0 when bit 0x80 triggers the reset), 0x0F and
0x11, the value itself otherwise. -/
def value_after_write (r v : Nat) : Nat :=
  if r = 0x03 then (if v &&& 0x80 ≠ 0 then 0 else v &&& 0xfc)
  else if r = 0x0f then v &&& 0xf8
  else if r = 0x11 then v &&& 0x7f
  else v

/-- Modelled from the spec: the six transaction shapes that the bus transport (not among the
sources) delivers to the handler set of the chip. -/
inductive smbus_txn where
  | read_byte : smbus_txn
  | read_byte_cmd (cmd : Nat) : smbus_txn
  | read_word_cmd (cmd : Nat) : smbus_txn
  | write_byte (val : Nat) : smbus_txn
  | write_byte_cmd (cmd val : Nat) : smbus_txn
  | write_word_cmd (cmd val : Nat) : smbus_txn

/-- Modelled from the spec: delivery of one transaction to the handler of its shape,
giving the chip state afterwards.  The three read handlers of the source assign nothing
in `*dev`, so the state after a read is the state before it. -/
def smbus_dispatch (addr : Nat) (t : smbus_txn) (dev : gl518sm_t) : Option gl518sm_t :=
  match t with
  | smbus_txn.read_byte => some dev
  | smbus_txn.read_byte_cmd _ => some dev
  | smbus_txn.read_word_cmd _ => some dev
  | smbus_txn.write_byte val => some (gl518sm_smbus_write_byte addr val dev)
  | smbus_txn.write_byte_cmd cmd val => gl518sm_smbus_write_byte_cmd addr cmd val dev
  | smbus_txn.write_word_cmd cmd val => gl518sm_smbus_write_word_cmd addr cmd val dev

/-- Modelled from the spec: a finite sequence of transactions, delivered one at a time. -/
def smbus_run (addr : Nat) : List smbus_txn → gl518sm_t → Option gl518sm_t
  | [], dev => some dev
  | t :: ts, dev => (smbus_dispatch addr t dev).bind (smbus_run addr ts)

/-- A transaction whose command byte, if it is a write with command, lies in 0x00 .. 0x1F. -/
def cmd_in_range (t : smbus_txn) : Prop :=
  match t with
  | smbus_txn.write_byte_cmd cmd _ => cmd < 32
  | smbus_txn.write_word_cmd cmd _ => cmd < 32
  | _ => True

/-- The fan register agrees with the divisor bits held in slot 0x0F: slot 0x07 is
`(enc(f0, 2^((D >> 6) & 3)) << 8) | enc(f1, 2^((D >> 4) & 3))` for `D` the content of slot
0x0F and `f0`, `f1` the fan readings of the sensor snapshot `values`. -/
def fan_consistent (values : hwm_values_t) (regs : Fin 32 → Nat) : Prop :=
  regs 0x07 =
    ((rpm_to_reg (values.fans 0) (2 ^ ((regs 0x0f >>> 6) &&& 3)) <<< 8) |||
      rpm_to_reg (values.fans 1) (2 ^ ((regs 0x0f >>> 4) &&& 3)))

/-- Byte-wide traffic: command-less writes, reads, and byte writes with a command in
0x00 .. 0x1F whose value is a `uint8_t`; no word write. -/
def byte_traffic (t : smbus_txn) : Prop :=
  match t with
  | smbus_txn.write_byte_cmd cmd val => cmd < 32 ∧ val < 256
  | smbus_txn.write_word_cmd _ _ => False
  | _ => True

/-- The three voltage readings encode to at most 242, so that each reset default
`13 + ((v / 19) & 0xFF)` fits in 8 bits. -/
def voltages_fit (values : hwm_values_t) : Prop :=
  (values.voltages 0 / 19) &&& 0xff ≤ 242 ∧ (values.voltages 1 / 19) &&& 0xff ≤ 242 ∧
    (values.voltages 2 / 19) &&& 0xff ≤ 242

instance (values : hwm_values_t) : Decidable (voltages_fit values) := by
  unfold voltages_fit; infer_instance

/-- Every slot outside the two-byte set 0x07 .. 0x0C holds at most 0xFF. -/
def byte_regs (regs : Fin 32 → Nat) : Prop :=
  ∀ r : Fin 32, r.val ∉ [0x07, 0x08, 0x09, 0x0a, 0x0b, 0x0c] → regs r ≤ 0xff

/-- A chip as `gl518sm_init` creates it for `gl518sm_2c_device`, with a core voltage of
2000 mV: the concrete state used to instantiate the theorems below. -/
def sample_dev : gl518sm_t :=
  (gl518sm_init ∅ gl518sm_2c_device_local 2000).2

/-! Section: Auxiliary facts about the bit operations -/

theorem and_ff_le (v : Nat) : v &&& 0xff ≤ 255 :=
  Nat.and_le_right

theorem dup_lt (x : Nat) (hx : x ≤ 255) : x ||| (x <<< 8) < 65536 := by
  apply Nat.or_lt_two_pow (n := 16)
  · omega
  · rw [Nat.shiftLeft_eq]; omega

theorem CLAMP_le (a : Nat) : CLAMP a 1 255 ≤ 255 := by
  unfold CLAMP
  split_ifs <;> omega

theorem GL518SM_RPM_TO_REG_le (r d : Nat) : GL518SM_RPM_TO_REG r d ≤ 255 := by
  unfold GL518SM_RPM_TO_REG
  split_ifs
  · exact CLAMP_le _
  · omega

theorem GL518SM_RPM_TO_REG_eq (r d : Nat) : GL518SM_RPM_TO_REG r d = rpm_to_reg r d := by
  unfold GL518SM_RPM_TO_REG rpm_to_reg CLAMP
  generalize 480000 / (r * d) = a
  split_ifs <;> omega

theorem GL518SM_RPM_TO_REG_shl_eq (r n : Nat) :
    GL518SM_RPM_TO_REG_shl r n = rpm_to_reg r (2 ^ n) := by
  unfold GL518SM_RPM_TO_REG_shl rpm_to_reg CLAMP
  rw [Nat.shiftLeft_eq, Nat.mul_one]
  generalize 480000 / (r * 2 ^ n) = a
  split_ifs <;> omega

theorem rpm_to_reg_le (r d : Nat) : rpm_to_reg r d ≤ 255 := by
  rw [← GL518SM_RPM_TO_REG_eq]; exact GL518SM_RPM_TO_REG_le r d

theorem shl8_lt (x : Nat) (hx : x ≤ 255) : x <<< 8 < 65536 := by
  rw [Nat.shiftLeft_eq]; omega

theorem pack_lt (x y : Nat) (hx : x ≤ 255) (hy : y ≤ 255) : (x <<< 8) ||| y < 65536 := by
  apply Nat.or_lt_two_pow (n := 16)
  · exact shl8_lt x hx
  · omega

theorem testBit_three_ge (i : Nat) : Nat.testBit 3 (i + 2) = false := by
  apply Nat.testBit_lt_two_pow
  calc 3 < 2 ^ 2 := by decide
    _ ≤ 2 ^ (i + 2) := Nat.pow_le_pow_right (by decide) (by omega)

theorem and_f8_shr6 (v : Nat) : ((v &&& 0xf8) >>> 6) &&& 3 = (v >>> 6) &&& 3 := by
  apply Nat.eq_of_testBit_eq
  intro i
  simp only [Nat.testBit_and, Nat.testBit_shiftRight]
  rcases i with _ | _ | i
  · have : Nat.testBit 0xf8 6 = true := by decide
    simp [this]
  · have : Nat.testBit 0xf8 7 = true := by decide
    simp [this]
  · simp [testBit_three_ge]

theorem and_f8_shr4 (v : Nat) : ((v &&& 0xf8) >>> 4) &&& 3 = (v >>> 4) &&& 3 := by
  apply Nat.eq_of_testBit_eq
  intro i
  simp only [Nat.testBit_and, Nat.testBit_shiftRight]
  rcases i with _ | _ | i
  · have : Nat.testBit 0xf8 4 = true := by decide
    simp [this]
  · have : Nat.testBit 0xf8 5 = true := by decide
    simp [this]
  · simp [testBit_three_ge]

/-- What `gl518sm_write` does for register 0x0F, with the stores spelled out through
`rpm_to_reg`. -/
theorem gl518sm_write_0f (dev : gl518sm_t) (v : Nat) :
    gl518sm_write dev 0x0f v = some (1, { dev with
      regs := Function.update (Function.update dev.regs 0x0f (v &&& 0xf8)) 0x07
        ((rpm_to_reg (dev.values.fans 0) (2 ^ ((v >>> 6) &&& 3)) <<< 8) |||
          rpm_to_reg (dev.values.fans 1) (2 ^ ((v >>> 4) &&& 3))) }) := by
  have h1 := shl8_lt _ (rpm_to_reg_le (dev.values.fans 0) (2 ^ ((v >>> 6) &&& 3)))
  have h2 := pack_lt _ _ (rpm_to_reg_le (dev.values.fans 0) (2 ^ ((v >>> 6) &&& 3)))
    (rpm_to_reg_le (dev.values.fans 1) (2 ^ ((v >>> 4) &&& 3)))
  simp [gl518sm_write, read_only, GL518SM_RPM_TO_REG_shl_eq, and_f8_shr6, and_f8_shr4,
    Nat.mod_eq_of_lt h1, Nat.mod_eq_of_lt h2]

theorem offset13_mod (x : Nat) : (13 + (x &&& 0xff)) % 65536 = 13 + (x &&& 0xff) := by
  have := and_ff_le x
  omega

/-- Function `gl518sm_read` at an in-range register number: the mask `& 0x1f` is the
identity. -/
theorem gl518sm_read_fin (dev : gl518sm_t) (r : Fin 32) :
    gl518sm_read dev r.val =
      if two_byte r.val then dev.regs r else (dev.regs r ||| (dev.regs r <<< 8)) % 65536 := by
  have hidx : r.val &&& 0x1f = r.val := by
    have : r.val &&& 0x1f = r.val % 2 ^ 5 := Nat.and_pow_two_sub_one_eq_mod r.val 5
    rw [this]; exact Nat.mod_eq_of_lt r.isLt
  have hfin : (⟨r.val &&& 0x1f, Nat.and_lt_two_pow r.val (by decide : 0x1f < 2 ^ 5)⟩ : Fin 32) = r :=
    Fin.ext hidx
  simp only [gl518sm_read, hfin]

/-- The register array after `gl518sm_reset`, slot by slot. -/
theorem gl518sm_reset_regs (dev : gl518sm_t) :
    (gl518sm_reset dev).regs = fun i : Fin 32 =>
      if i = 0x15 then 223
      else if i = 0x14 then 13 + ((dev.values.voltages 0 / 19) &&& 0xff)
      else if i = 0x13 then 13 + ((dev.values.voltages 1 / 19) &&& 0xff)
      else if i = 0x0f then 0xf8
      else if i = 0x0d then 13 + ((dev.values.voltages 2 / 19) &&& 0xff)
      else if i = 0x0c then 0xdac5
      else if i = 0x0b then 0xdac5
      else if i = 0x0a then 0xdac5
      else if i = 0x09 then 0xdac5
      else if i = 0x08 then 0x6464
      else if i = 0x07 then
        (rpm_to_reg (dev.values.fans 0) 8 <<< 8) ||| rpm_to_reg (dev.values.fans 1) 8
      else if i = 0x06 then 0xc2
      else if i = 0x05 then 0xc7
      else if i = 0x04 then (dev.values.temperatures 0 + 119) &&& 0xff
      else if i = 0x01 then 0x80
      else if i = 0x00 then 0x80
      else 0 := by
  have h2 := pack_lt _ _ (rpm_to_reg_le (dev.values.fans 0) 8) (rpm_to_reg_le (dev.values.fans 1) 8)
  have hvdd : (13 + GL518SM_VDD_TO_REG 5000) % 65536 = 223 := by decide
  funext i
  simp only [gl518sm_reset, Function.update_apply, GL518SM_RPM_TO_REG_eq, GL518SM_VOLTAGE_TO_REG,
    offset13_mod, Nat.mod_eq_of_lt h2, hvdd]

theorem gl518sm_reset_regs_04 (dev : gl518sm_t) :
    (gl518sm_reset dev).regs 0x04 = (dev.values.temperatures 0 + 119) &&& 0xff := by
  rw [gl518sm_reset_regs]
  rfl

theorem gl518sm_reset_regs_07 (dev : gl518sm_t) :
    (gl518sm_reset dev).regs 0x07 =
      (rpm_to_reg (dev.values.fans 0) 8 <<< 8) ||| rpm_to_reg (dev.values.fans 1) 8 := by
  rw [gl518sm_reset_regs]
  rfl

/-- The result of `gl518sm_reset` does not depend on the registers it overwrites. -/
theorem gl518sm_reset_regs_congr (dev1 dev2 : gl518sm_t) (h : dev1.values = dev2.values) :
    (gl518sm_reset dev1).regs = (gl518sm_reset dev2).regs := by
  rw [gl518sm_reset_regs, gl518sm_reset_regs, h]

theorem and_ffff_of_lt (v : Nat) (hv : v < 65536) : v &&& 0xffff = v := by
  have : v &&& 0xffff = v % 2 ^ 16 := Nat.and_pow_two_sub_one_eq_mod v 16
  rw [this]; exact Nat.mod_eq_of_lt hv

/-- Function `gl518sm_write` at an in-range register number, branch by branch. -/
theorem gl518sm_write_fin (dev : gl518sm_t) (r : Fin 32) (v : Nat) :
    gl518sm_write dev r.val v =
      if read_only r.val then some (0, dev)
      else if r.val = 0x0a then
        some (1, { dev with regs := Function.update dev.regs 0x13 (v &&& 0xff) })
      else if r.val = 0x03 then
        some (1, if v &&& 0x80 ≠ 0 then gl518sm_reset dev
          else { dev with regs := Function.update dev.regs 0x03 (v &&& 0xfc) })
      else if r.val = 0x0f then
        some (1, { dev with
          regs := Function.update (Function.update dev.regs 0x0f (v &&& 0xf8)) 0x07
            ((rpm_to_reg (dev.values.fans 0) (2 ^ ((v >>> 6) &&& 3)) <<< 8) |||
              rpm_to_reg (dev.values.fans 1) (2 ^ ((v >>> 4) &&& 3))) })
      else if r.val = 0x11 then
        some (1, { dev with regs := Function.update dev.regs 0x11 (v &&& 0x7f) })
      else some (1, { dev with regs := Function.update dev.regs r v }) := by
  by_cases hro : read_only r.val
  · simp [gl518sm_write, hro]
  by_cases ha : r.val = 0x0a
  · simp [gl518sm_write, hro, ha]
  by_cases h3 : r.val = 0x03
  · rw [if_neg hro, if_neg ha, if_pos h3, h3]
    by_cases hv : v &&& 0x80 = 0
    · simp [gl518sm_write, read_only, hv]
    · have hreset : gl518sm_reset
          { dev with regs := Function.update dev.regs 0x03 (v &&& 0xfc) } = gl518sm_reset dev := rfl
      simp [gl518sm_write, read_only, hv, hreset]
  by_cases hf : r.val = 0x0f
  · rw [if_neg hro, if_neg ha, if_neg h3, if_pos hf, hf]
    exact gl518sm_write_0f dev v
  by_cases h11 : r.val = 0x11
  · rw [if_neg hro, if_neg ha, if_neg h3, if_neg hf, if_pos h11, h11]
    simp [gl518sm_write, read_only]
  · simp [gl518sm_write, hro, ha, h3, hf, h11]

/-- Every register number from 32 on reaches the `default` branch of `gl518sm_write`, whose
store then lies outside the register array. -/
theorem gl518sm_write_out_of_range (dev : gl518sm_t) (r v : Nat) (hr : 32 ≤ r) :
    gl518sm_write dev r v = none := by
  have hro : ¬ read_only r := by
    unfold read_only; omega
  have h1 : r ≠ 0x0a := by omega
  have h2 : r ≠ 0x03 := by omega
  have h3 : r ≠ 0x0f := by omega
  have h4 : r ≠ 0x11 := by omega
  have h5 : ¬ r < 32 := by omega
  simp [gl518sm_write, hro, h1, h2, h3, h4, h5]

theorem testBit_of_and_two_pow_eq (v k : Nat) (h : v &&& 2 ^ k = 0) : v.testBit k = false := by
  have h1 := congrArg (fun x => Nat.testBit x k) h
  simpa [Nat.testBit_and, Nat.testBit_two_pow_self] using h1

theorem testBit_of_and_two_pow_ne (v k : Nat) (h : v &&& 2 ^ k ≠ 0) : v.testBit k = true := by
  by_contra hc
  apply h
  apply Nat.eq_of_testBit_eq
  intro j
  by_cases hj : k = j
  · subst hj
    simp [Nat.testBit_and, hc]
  · simp [Nat.testBit_and, Nat.testBit_two_pow_of_ne hj]

/-- Bits 7:6 of `v` select the exponent 2 when bit 7 is set and bit 6 is clear. -/
theorem shr6_of_bit7_not_bit6 (v : Nat) (h7 : v &&& 0x80 ≠ 0) (h6 : v &&& 0x40 = 0) :
    (v >>> 6) &&& 3 = 2 := by
  have b7 : v.testBit 7 = true := testBit_of_and_two_pow_ne v 7 h7
  have b6 : v.testBit 6 = false := testBit_of_and_two_pow_eq v 6 h6
  apply Nat.eq_of_testBit_eq
  intro i
  simp only [Nat.testBit_and, Nat.testBit_shiftRight]
  rcases i with _ | _ | i
  · simp [b6]
  · have : Nat.testBit 2 1 = true := by decide
    have h3 : Nat.testBit 3 1 = true := by decide
    simp [b7, this, h3]
  · have h2 : Nat.testBit 2 (i + 2) = false := by
      apply Nat.testBit_lt_two_pow
      calc 2 < 2 ^ 2 := by decide
        _ ≤ 2 ^ (i + 2) := Nat.pow_le_pow_right (by decide) (by omega)
    simp [testBit_three_ge, h2]

/-- The high byte of a packed pair of bytes. -/
theorem pack_div (x y : Nat) (hy : y ≤ 255) : ((x <<< 8) ||| y) / 256 = x := by
  have h : 2 ^ 8 * x + y = 2 ^ 8 * x ||| y := Nat.mul_add_lt_is_or (by omega) x
  rw [Nat.shiftLeft_eq, Nat.mul_comm, ← h]
  omega

theorem and_ff_of_le (w : Nat) (hw : w ≤ 0xff) : w &&& 0xff = w := by
  have : w &&& 0xff = w % 2 ^ 8 := Nat.and_pow_two_sub_one_eq_mod w 8
  rw [this]; exact Nat.mod_eq_of_lt (by omega)

/-- A read of an in-range register outside the two-byte set whose slot holds at most 0xFF
returns the duplicated form of the slot. -/
theorem gl518sm_read_duplicated (dev : gl518sm_t) (r : Fin 32) (h2 : ¬ two_byte r.val)
    (hw : dev.regs r ≤ 0xff) : gl518sm_read dev r.val = duplicated (dev.regs r) := by
  rw [gl518sm_read_fin, if_neg h2, Nat.mod_eq_of_lt (dup_lt _ hw)]
  unfold duplicated
  rw [and_ff_of_le _ hw]

theorem value_after_write_le (r v : Nat) (hv : r ∉ [0x03, 0x0f, 0x11] → v ≤ 0xff) :
    value_after_write r v ≤ 0xff := by
  unfold value_after_write
  split_ifs with h3 h80 hf h11
  · omega
  · exact Nat.le_trans Nat.and_le_right (by decide)
  · exact Nat.le_trans Nat.and_le_right (by decide)
  · exact Nat.le_trans Nat.and_le_right (by decide)
  · apply hv
    simp [h3, hf, h11]

/-- The slot of a writable in-range register other than 0x0A after a write to it. -/
theorem gl518sm_write_slot (dev : gl518sm_t) (r : Fin 32) (v : Nat)
    (hro : ¬ read_only r.val) (ha : r.val ≠ 0x0a) :
    ∃ dev1, gl518sm_write dev r.val v = some (1, dev1) ∧
      dev1.regs r = value_after_write r.val v := by
  rw [gl518sm_write_fin, if_neg hro, if_neg ha]
  unfold value_after_write
  by_cases h3 : r.val = 0x03
  · have er : r = 0x03 := Fin.ext h3
    rw [if_pos h3, if_pos h3, er]
    refine ⟨_, rfl, ?_⟩
    by_cases hv : v &&& 0x80 = 0
    · simp [hv]
    · simp only [ne_eq, hv, not_false_eq_true, if_true]
      rw [gl518sm_reset_regs]
      rfl
  by_cases hf : r.val = 0x0f
  · have er : r = 0x0f := Fin.ext hf
    rw [if_neg h3, if_neg h3, if_pos hf, if_pos hf, er]
    refine ⟨_, rfl, ?_⟩
    simp [Function.update]
  by_cases h11 : r.val = 0x11
  · have er : r = 0x11 := Fin.ext h11
    rw [if_neg h3, if_neg h3, if_neg hf, if_neg hf, if_pos h11, if_pos h11, er]
    refine ⟨_, rfl, ?_⟩
    simp
  · rw [if_neg h3, if_neg h3, if_neg hf, if_neg hf, if_neg h11, if_neg h11]
    refine ⟨_, rfl, ?_⟩
    simp

/-- The reset state is fan-consistent: slot 0x0F holds 0xF8, both divisors are 8. -/
theorem fan_consistent_reset (dev : gl518sm_t) :
    fan_consistent dev.values (gl518sm_reset dev).regs := by
  have hf : (gl518sm_reset dev).regs 0x0f = 0xf8 := by
    rw [gl518sm_reset_regs]
    rfl
  have e6 : 2 ^ ((0xf8 >>> 6) &&& 3) = 8 := by decide
  have e4 : 2 ^ ((0xf8 >>> 4) &&& 3) = 8 := by decide
  unfold fan_consistent
  rw [gl518sm_reset_regs_07, hf, e6, e4]

/-- A write to an in-range register succeeds, keeps the sensor snapshot and keeps the fan
register consistent with slot 0x0F. -/
theorem gl518sm_write_fan_consistent (dev : gl518sm_t) (r : Fin 32) (v : Nat)
    (h : fan_consistent dev.values dev.regs) :
    ∃ ret dev1, gl518sm_write dev r.val v = some (ret, dev1) ∧ dev1.values = dev.values ∧
      fan_consistent dev1.values dev1.regs := by
  rw [gl518sm_write_fin]
  by_cases hro : read_only r.val
  · rw [if_pos hro]
    exact ⟨0, dev, rfl, rfl, h⟩
  rw [if_neg hro]
  by_cases ha : r.val = 0x0a
  · rw [if_pos ha]
    refine ⟨1, _, rfl, rfl, ?_⟩
    unfold fan_consistent at h ⊢
    simpa [Function.update] using h
  rw [if_neg ha]
  by_cases e3 : r.val = 0x03
  · rw [if_pos e3]
    refine ⟨1, _, rfl, ?_, ?_⟩
    · split_ifs <;> rfl
    · by_cases hv : v &&& 0x80 = 0
      · simp only [ne_eq, hv, not_true_eq_false, if_false]
        unfold fan_consistent at h ⊢
        simpa [Function.update] using h
      · simp only [ne_eq, hv, not_false_eq_true, if_true]
        exact fan_consistent_reset dev
  rw [if_neg e3]
  by_cases hf : r.val = 0x0f
  · rw [if_pos hf]
    refine ⟨1, _, rfl, rfl, ?_⟩
    unfold fan_consistent
    simp [Function.update, and_f8_shr6, and_f8_shr4]
  rw [if_neg hf]
  by_cases h11 : r.val = 0x11
  · rw [if_pos h11]
    refine ⟨1, _, rfl, rfl, ?_⟩
    unfold fan_consistent at h ⊢
    simpa [Function.update] using h
  · rw [if_neg h11]
    refine ⟨1, _, rfl, rfl, ?_⟩
    have h7 : (0x07 : Fin 32) ≠ r := by
      intro e; apply hro; rw [← e]; decide
    have hff : (0x0f : Fin 32) ≠ r := by
      intro e; apply hf; rw [← e]; rfl
    unfold fan_consistent at h ⊢
    simp only [Function.update_noteq h7, Function.update_noteq hff]
    exact h

/-- One transaction with an in-range command succeeds, keeps the sensor snapshot and keeps
the fan register consistent with slot 0x0F. -/
theorem smbus_dispatch_fan_consistent (addr : Nat) (t : smbus_txn) (dev : gl518sm_t)
    (ht : cmd_in_range t) (h : fan_consistent dev.values dev.regs) :
    ∃ dev1, smbus_dispatch addr t dev = some dev1 ∧ dev1.values = dev.values ∧
      fan_consistent dev1.values dev1.regs := by
  cases t with
  | read_byte => exact ⟨dev, rfl, rfl, h⟩
  | read_byte_cmd cmd => exact ⟨dev, rfl, rfl, h⟩
  | read_word_cmd cmd => exact ⟨dev, rfl, rfl, h⟩
  | write_byte val => exact ⟨_, rfl, rfl, h⟩
  | write_byte_cmd cmd val =>
    obtain ⟨ret, dev1, hw, hv, hc⟩ := gl518sm_write_fan_consistent dev ⟨cmd, ht⟩ val h
    refine ⟨dev1, ?_, hv, hc⟩
    simp only [smbus_dispatch, gl518sm_smbus_write_byte_cmd]
    rw [hw]; rfl
  | write_word_cmd cmd val =>
    obtain ⟨ret, dev1, hw, hv, hc⟩ := gl518sm_write_fan_consistent dev ⟨cmd, ht⟩ val h
    refine ⟨dev1, ?_, hv, hc⟩
    simp only [smbus_dispatch, gl518sm_smbus_write_word_cmd]
    rw [hw]; rfl

/-- A finite sequence of transactions with in-range commands succeeds, keeps the sensor
snapshot and keeps the fan register consistent with slot 0x0F. -/
theorem smbus_run_fan_consistent (addr : Nat) (txns : List smbus_txn) :
    ∀ dev : gl518sm_t, (∀ t ∈ txns, cmd_in_range t) → fan_consistent dev.values dev.regs →
      ∃ dev1, smbus_run addr txns dev = some dev1 ∧ dev1.values = dev.values ∧
        fan_consistent dev1.values dev1.regs := by
  induction txns with
  | nil =>
    intro dev _ h
    exact ⟨dev, rfl, rfl, h⟩
  | cons t ts ih =>
    intro dev hall h
    obtain ⟨dev1, hd, hv1, hc1⟩ :=
      smbus_dispatch_fan_consistent addr t dev (hall t (List.mem_cons_self t ts)) h
    obtain ⟨dev2, hr, hv2, hc2⟩ :=
      ih dev1 (fun u hu => hall u (List.mem_cons_of_mem t hu)) hc1
    refine ⟨dev2, ?_, hv2.trans hv1, hc2⟩
    simp only [smbus_run, hd, Option.some_bind]
    exact hr

/-- The low byte of the duplicated form of a byte is the byte. -/
theorem dup_mod_256 (w : Nat) (hw : w ≤ 0xff) : (w ||| (w <<< 8)) % 256 = w := by
  have h : 2 ^ 8 * w + w = 2 ^ 8 * w ||| w := Nat.mul_add_lt_is_or (by omega) w
  rw [Nat.shiftLeft_eq, Nat.or_comm, Nat.mul_comm, ← h]
  omega

/-- After `gl518sm_reset` every slot outside the two-byte set holds at most 0xFF when the
voltage readings fit. -/
theorem byte_regs_reset (dev : gl518sm_t) (hv : voltages_fit dev.values) :
    byte_regs (gl518sm_reset dev).regs := by
  obtain ⟨h0, h1, h2⟩ := hv
  have ht : (dev.values.temperatures 0 + 119) &&& 0xff ≤ 0xff := Nat.and_le_right
  intro r hr
  rw [gl518sm_reset_regs]
  fin_cases r <;> first
    | (exfalso; revert hr; decide)
    | (show (0x80 : Nat) ≤ 0xff; decide)
    | (show (0xc7 : Nat) ≤ 0xff; decide)
    | (show (0xc2 : Nat) ≤ 0xff; decide)
    | (show (0xf8 : Nat) ≤ 0xff; decide)
    | (show (223 : Nat) ≤ 0xff; decide)
    | (show (0 : Nat) ≤ 0xff; decide)
    | exact ht
    | (show 13 + ((dev.values.voltages 0 / 19) &&& 0xff) ≤ 0xff; omega)
    | (show 13 + ((dev.values.voltages 1 / 19) &&& 0xff) ≤ 0xff; omega)
    | (show 13 + ((dev.values.voltages 2 / 19) &&& 0xff) ≤ 0xff; omega)

/-- A byte-valued write to an in-range register succeeds, keeps the sensor snapshot and
keeps every slot outside the two-byte set at most 0xFF. -/
theorem gl518sm_write_byte_regs (dev : gl518sm_t) (r : Fin 32) (v : Nat) (hv : v < 256)
    (hfit : voltages_fit dev.values) (h : byte_regs dev.regs) :
    ∃ ret dev1, gl518sm_write dev r.val v = some (ret, dev1) ∧ dev1.values = dev.values ∧
      byte_regs dev1.regs := by
  have upd : ∀ (i : Fin 32) (w : Nat), w ≤ 0xff → byte_regs (Function.update dev.regs i w) := by
    intro i w hw s hs
    by_cases e : s = i
    · rw [e, Function.update_same]; exact hw
    · rw [Function.update_noteq e]; exact h s hs
  rw [gl518sm_write_fin]
  by_cases hro : read_only r.val
  · rw [if_pos hro]
    exact ⟨0, dev, rfl, rfl, h⟩
  rw [if_neg hro]
  by_cases ha : r.val = 0x0a
  · rw [if_pos ha]
    exact ⟨1, _, rfl, rfl, upd 0x13 _ Nat.and_le_right⟩
  rw [if_neg ha]
  by_cases e3 : r.val = 0x03
  · rw [if_pos e3]
    refine ⟨1, _, rfl, ?_, ?_⟩
    · split_ifs <;> rfl
    · by_cases hb : v &&& 0x80 = 0
      · simp only [ne_eq, hb, not_true_eq_false, if_false]
        exact upd 0x03 _ (Nat.le_trans Nat.and_le_right (by decide))
      · simp only [ne_eq, hb, not_false_eq_true, if_true]
        exact byte_regs_reset dev hfit
  rw [if_neg e3]
  by_cases hf : r.val = 0x0f
  · rw [if_pos hf]
    refine ⟨1, _, rfl, rfl, ?_⟩
    intro s hs
    have hs7 : s ≠ 0x07 := by
      intro e; apply hs; rw [e]; decide
    show Function.update (Function.update dev.regs 0x0f (v &&& 0xf8)) 0x07 _ s ≤ 0xff
    rw [Function.update_noteq hs7]
    exact upd 0x0f _ (Nat.le_trans Nat.and_le_right (by decide)) s hs
  rw [if_neg hf]
  by_cases h11 : r.val = 0x11
  · rw [if_pos h11]
    exact ⟨1, _, rfl, rfl, upd 0x11 _ (Nat.le_trans Nat.and_le_right (by decide))⟩
  · rw [if_neg h11]
    exact ⟨1, _, rfl, rfl, upd r v (by omega)⟩

/-- One transaction of byte-wide traffic succeeds, keeps the sensor snapshot and keeps
every slot outside the two-byte set at most 0xFF. -/
theorem smbus_dispatch_byte_regs (addr : Nat) (t : smbus_txn) (dev : gl518sm_t)
    (ht : byte_traffic t) (hfit : voltages_fit dev.values) (h : byte_regs dev.regs) :
    ∃ dev1, smbus_dispatch addr t dev = some dev1 ∧ dev1.values = dev.values ∧
      byte_regs dev1.regs := by
  cases t with
  | read_byte => exact ⟨dev, rfl, rfl, h⟩
  | read_byte_cmd cmd => exact ⟨dev, rfl, rfl, h⟩
  | read_word_cmd cmd => exact ⟨dev, rfl, rfl, h⟩
  | write_byte val => exact ⟨_, rfl, rfl, h⟩
  | write_byte_cmd cmd val =>
    obtain ⟨hc, hval⟩ := ht
    obtain ⟨ret, dev1, hw, hv, hb⟩ := gl518sm_write_byte_regs dev ⟨cmd, hc⟩ val hval hfit h
    refine ⟨dev1, ?_, hv, hb⟩
    simp only [smbus_dispatch, gl518sm_smbus_write_byte_cmd]
    rw [hw]; rfl
  | write_word_cmd cmd val => exact absurd ht (by simp [byte_traffic])

/-- A finite sequence of byte-wide traffic succeeds, keeps the sensor snapshot and keeps
every slot outside the two-byte set at most 0xFF. -/
theorem smbus_run_byte_regs (addr : Nat) (txns : List smbus_txn) :
    ∀ dev : gl518sm_t, (∀ t ∈ txns, byte_traffic t) → voltages_fit dev.values →
      byte_regs dev.regs →
      ∃ dev1, smbus_run addr txns dev = some dev1 ∧ dev1.values = dev.values ∧
        byte_regs dev1.regs := by
  induction txns with
  | nil =>
    intro dev _ _ h
    exact ⟨dev, rfl, rfl, h⟩
  | cons t ts ih =>
    intro dev hall hfit h
    obtain ⟨dev1, hd, hv1, hb1⟩ :=
      smbus_dispatch_byte_regs addr t dev (hall t (List.mem_cons_self t ts)) hfit h
    obtain ⟨dev2, hr, hv2, hb2⟩ :=
      ih dev1 (fun u hu => hall u (List.mem_cons_of_mem t hu)) (by rw [hv1]; exact hfit) hb1
    refine ⟨dev2, ?_, hv2.trans hv1, hb2⟩
    simp only [smbus_run, hd, Option.some_bind]
    exact hr

/-! Section: Theorems -/

/-- C1: a write to any of the read-only registers 0x00, 0x01, 0x04, 0x07, 0x0D, 0x12, 0x13,
0x14, 0x15 returns 0 and hands back the state it was given, so all 32 slots and the
selected-register latch are as before, whatever value is written. -/
theorem C1_write_read_only_is_noop (dev : gl518sm_t) (r v : Nat)
    (hr : r ∈ [0x00, 0x01, 0x04, 0x07, 0x0d, 0x12, 0x13, 0x14, 0x15]) :
    gl518sm_write dev r v = some (0, dev) := by
  have h : read_only r := by
    simpa [read_only] using hr
  simp [gl518sm_write, h]

/-- Instance of C1 at register 0x13 of the sample chip with value 0xBEEF. -/
theorem C1_write_read_only_is_noop_witness :
    0x13 ∈ [0x00, 0x01, 0x04, 0x07, 0x0d, 0x12, 0x13, 0x14, 0x15] ∧
      gl518sm_write sample_dev 0x13 0xbeef = some (0, sample_dev) :=
  ⟨by decide, C1_write_read_only_is_noop sample_dev 0x13 0xbeef (by decide)⟩

/-- C2, evaluated at a failing input: after the word write of 0x1234 to register 0x02 of the
sample chip, the slot holds 0x1234 and a read of register 0x02 returns 0x3634, whose high
byte 0x36 is not the low byte 0x34 of the slot; the duplicated form would be 0x3434. -/
theorem C2_read_ors_stored_high_byte :
    ∃ dev, gl518sm_smbus_write_word_cmd 0x2c 0x02 0x1234 sample_dev = some dev ∧
      dev.regs 0x02 = 0x1234 ∧
      gl518sm_read dev 0x02 = 0x3634 ∧
      gl518sm_read dev 0x02 ≠ (dev.regs 0x02 &&& 0xff) ||| ((dev.regs 0x02 &&& 0xff) <<< 8) := by
  refine ⟨_, rfl, rfl, rfl, ?_⟩
  decide

/-- C3: for a register of the two-byte set 0x07 .. 0x0C, `gl518sm_read` returns the stored
slot value as it is, and the word read handler with that command returns the same value. -/
theorem C3_two_byte_read_is_raw (dev : gl518sm_t) (r : Fin 32) (addr : Nat)
    (hr : r.val ∈ [0x07, 0x08, 0x09, 0x0a, 0x0b, 0x0c]) :
    gl518sm_read dev r.val = dev.regs r ∧
      gl518sm_smbus_read_word_cmd addr r.val dev = dev.regs r := by
  have h2 : two_byte r.val := by
    simpa [two_byte] using hr
  have hidx : r.val &&& 0x1f = r.val := by
    have : r.val &&& 0x1f = r.val % 2 ^ 5 := Nat.and_pow_two_sub_one_eq_mod r.val 5
    rw [this]; exact Nat.mod_eq_of_lt r.isLt
  have hread : gl518sm_read dev r.val = dev.regs r := by
    simp only [gl518sm_read, h2, if_true]
    congr 1
    exact Fin.ext hidx
  exact ⟨hread, hread⟩

/-- Instance of C3 at register 0x08 of the sample chip. -/
theorem C3_two_byte_read_is_raw_witness :
    ((0x08 : Fin 32).val ∈ [0x07, 0x08, 0x09, 0x0a, 0x0b, 0x0c]) ∧
      (gl518sm_read sample_dev (0x08 : Fin 32).val = sample_dev.regs 0x08 ∧
        gl518sm_smbus_read_word_cmd 0x2c (0x08 : Fin 32).val sample_dev = sample_dev.regs 0x08) :=
  ⟨by decide, C3_two_byte_read_is_raw sample_dev 0x08 0x2c (by decide)⟩

/-- C4: a write of `v` to register 0x0F returns 1; afterwards slot 0x0F is `v & 0xF8`, slot
0x07 is `(enc(f0, 2^((v >> 6) & 3)) << 8) | enc(f1, 2^((v >> 4) & 3))` with `enc` the
`rpm_to_reg` of the specification and `f0`, `f1` the two fan readings, every other slot, the
selected-register latch and the remaining fields are as before; and the expansion of
`GL518SM_RPM_TO_REG` with the argument `1 << n` equals `enc(r, 2^n)`. -/
theorem C4_write_0f_recomputes_fans (dev : gl518sm_t) (v : Nat) :
    (∃ dev1, gl518sm_write dev 0x0f v = some (1, dev1) ∧
      dev1.regs 0x0f = v &&& 0xf8 ∧
      dev1.regs 0x07 =
        ((rpm_to_reg (dev.values.fans 0) (2 ^ ((v >>> 6) &&& 3)) <<< 8) |||
          rpm_to_reg (dev.values.fans 1) (2 ^ ((v >>> 4) &&& 3))) ∧
      (∀ i : Fin 32, i ≠ 0x0f → i ≠ 0x07 → dev1.regs i = dev.regs i) ∧
      dev1.addr_register = dev.addr_register ∧ dev1.smbus_addr = dev.smbus_addr ∧
      dev1.local_ = dev.local_ ∧ dev1.values = dev.values) ∧
    (∀ r n : Nat, GL518SM_RPM_TO_REG_shl r n = rpm_to_reg r (2 ^ n)) := by
  refine ⟨⟨_, gl518sm_write_0f dev v, ?_, ?_, ?_, rfl, rfl, rfl, rfl⟩, GL518SM_RPM_TO_REG_shl_eq⟩
  · simp [Function.update]
  · simp [Function.update]
  · intro i h1 h2
    simp [Function.update, h1, h2]

/-- C5: a write to register 0x03 of a value with bit 0x80 set returns 1 and leaves the
register array equal to the one `gl518sm_reset` produces on any chip with the same sensor
snapshot (so neither the prior registers nor the other bits of the value matter); slot
0x03 ends at 0, and the selected-register latch and the sensor snapshot are unchanged. -/
theorem C5_write_03_init_bit_resets (dev other : gl518sm_t) (v : Nat)
    (hv : v &&& 0x80 ≠ 0) (hs : other.values = dev.values) :
    ∃ dev1, gl518sm_write dev 0x03 v = some (1, dev1) ∧
      dev1.regs = (gl518sm_reset other).regs ∧
      dev1.regs 0x03 = 0 ∧
      dev1.addr_register = dev.addr_register ∧ dev1.values = dev.values := by
  have hw : gl518sm_write dev 0x03 v =
      some (1, gl518sm_reset { dev with regs := Function.update dev.regs 0x03 (v &&& 0xfc) }) := by
    simp [gl518sm_write, read_only, hv]
  refine ⟨_, hw, ?_, ?_, rfl, rfl⟩
  · exact gl518sm_reset_regs_congr _ _ hs.symm
  · rw [gl518sm_reset_regs]
    rfl

/-- Instance of C5: value 0xFF written to register 0x03 of the sample chip, compared with
the reset of a chip whose 32 slots all hold 0xFFFF. -/
theorem C5_write_03_init_bit_resets_witness :
    (0xff &&& 0x80 ≠ 0 ∧ ({ sample_dev with regs := fun _ => 0xffff } : gl518sm_t).values
        = sample_dev.values) ∧
      ∃ dev1, gl518sm_write sample_dev 0x03 0xff = some (1, dev1) ∧
        dev1.regs = (gl518sm_reset { sample_dev with regs := fun _ => 0xffff }).regs ∧
        dev1.regs 0x03 = 0 ∧
        dev1.addr_register = sample_dev.addr_register ∧ dev1.values = sample_dev.values :=
  ⟨⟨by decide, rfl⟩,
    C5_write_03_init_bit_resets sample_dev { sample_dev with regs := fun _ => 0xffff } 0xff
      (by decide) rfl⟩

/-- C6: after `gl518sm_reset`, whatever the registers held before, the slots are
0x00 = 0x80, 0x01 = 0x80, 0x04 = `(t + 119) & 0xFF`, 0x05 = 0xC7, 0x06 = 0xC2,
0x07 = `(enc(f0, 8) << 8) | enc(f1, 8)`, 0x08 = 0x6464, 0x09 .. 0x0C = 0xDAC5,
0x0D = `13 + ((v2 / 19) & 0xFF)`, 0x0F = 0xF8, 0x13 = `13 + ((v1 / 19) & 0xFF)`,
0x14 = `13 + ((v0 / 19) & 0xFF)`, 0x15 = `13 + (((5000 * 4) / 95) & 0xFF)` = 223, and every
other slot is 0; the offset 13 is added outside the 8-bit mask. -/
theorem C6_reset_defaults (dev : gl518sm_t) :
    (gl518sm_reset dev).regs 0x00 = 0x80 ∧
    (gl518sm_reset dev).regs 0x01 = 0x80 ∧
    (gl518sm_reset dev).regs 0x04 = (dev.values.temperatures 0 + 119) &&& 0xff ∧
    (gl518sm_reset dev).regs 0x05 = 0xc7 ∧
    (gl518sm_reset dev).regs 0x06 = 0xc2 ∧
    (gl518sm_reset dev).regs 0x07 =
      ((rpm_to_reg (dev.values.fans 0) 8 <<< 8) ||| rpm_to_reg (dev.values.fans 1) 8) ∧
    (gl518sm_reset dev).regs 0x08 = 0x6464 ∧
    (gl518sm_reset dev).regs 0x09 = 0xdac5 ∧
    (gl518sm_reset dev).regs 0x0a = 0xdac5 ∧
    (gl518sm_reset dev).regs 0x0b = 0xdac5 ∧
    (gl518sm_reset dev).regs 0x0c = 0xdac5 ∧
    (gl518sm_reset dev).regs 0x0d = 13 + ((dev.values.voltages 2 / 19) &&& 0xff) ∧
    (gl518sm_reset dev).regs 0x0f = 0xf8 ∧
    (gl518sm_reset dev).regs 0x13 = 13 + ((dev.values.voltages 1 / 19) &&& 0xff) ∧
    (gl518sm_reset dev).regs 0x14 = 13 + ((dev.values.voltages 0 / 19) &&& 0xff) ∧
    (gl518sm_reset dev).regs 0x15 = 13 + (((5000 * 4) / 95) &&& 0xff) ∧
    (gl518sm_reset dev).regs 0x15 = 223 ∧
    (∀ i : Fin 32, i.val ∉ [0x00, 0x01, 0x04, 0x05, 0x06, 0x07, 0x08, 0x09, 0x0a, 0x0b, 0x0c,
        0x0d, 0x0f, 0x13, 0x14, 0x15] → (gl518sm_reset dev).regs i = 0) := by
  rw [gl518sm_reset_regs]
  refine ⟨rfl, rfl, rfl, rfl, rfl, rfl, rfl, rfl, rfl, rfl, rfl, rfl, rfl, rfl, rfl, rfl, rfl, ?_⟩
  intro i hi
  fin_cases i <;> first | rfl | (exfalso; revert hi; decide)

/-- C7: on the chip that `gl518sm_init` creates (for any `local` value, so for both presets
0x2C and 0x2D, and any core voltage) slot 0x04 is 149 and the word read of register 0x04
returns 0x9595; slot 0x07 is 0x1414, both of its bytes being
`clamp(480000 / (3000 * 8), 1, 255) = 20`, and the word read of register 0x07 returns
0x1414; the seeded readings are fans 3000, 3000 and temperature 30. -/
theorem C7_init_end_to_end (bus : smbus_t) (vcore addr : Nat) :
    ∀ info_local : Nat,
      (gl518sm_init bus info_local vcore).2.values.fans 0 = 3000 ∧
      (gl518sm_init bus info_local vcore).2.values.fans 1 = 3000 ∧
      (gl518sm_init bus info_local vcore).2.values.temperatures 0 = 30 ∧
      (gl518sm_init bus info_local vcore).2.regs 0x04 = 149 ∧
      gl518sm_smbus_read_word_cmd addr 0x04 (gl518sm_init bus info_local vcore).2 = 0x9595 ∧
      (gl518sm_init bus info_local vcore).2.regs 0x07 = 0x1414 ∧
      (gl518sm_init bus info_local vcore).2.regs 0x07 / 256 = rpm_to_reg 3000 8 ∧
      (gl518sm_init bus info_local vcore).2.regs 0x07 % 256 = rpm_to_reg 3000 8 ∧
      rpm_to_reg 3000 8 = 20 ∧
      gl518sm_smbus_read_word_cmd addr 0x07 (gl518sm_init bus info_local vcore).2 = 0x1414 := by
  intro info_local
  have hregs : (gl518sm_init bus info_local vcore).2.regs =
      (gl518sm_reset ⟨info_local, defaults vcore, fun _ => 0, 0, 0⟩).regs := rfl
  have h4 : (gl518sm_init bus info_local vcore).2.regs 0x04 = 149 := by
    rw [hregs, gl518sm_reset_regs_04]
    simp only [defaults, if_true]
    decide
  have h7 : (gl518sm_init bus info_local vcore).2.regs 0x07 = 0x1414 := by
    rw [hregs, gl518sm_reset_regs_07]
    simp only [defaults, if_true]
    decide
  have hr4 : gl518sm_smbus_read_word_cmd addr 0x04 (gl518sm_init bus info_local vcore).2
      = 0x9595 := by
    have h := gl518sm_read_fin (gl518sm_init bus info_local vcore).2 0x04
    rw [h4, if_neg (by decide : ¬ two_byte ((0x04 : Fin 32) : Nat))] at h
    exact h
  have hr7 : gl518sm_smbus_read_word_cmd addr 0x07 (gl518sm_init bus info_local vcore).2
      = 0x1414 := by
    have h := gl518sm_read_fin (gl518sm_init bus info_local vcore).2 0x07
    rw [h7, if_pos (by decide : two_byte ((0x07 : Fin 32) : Nat))] at h
    exact h
  refine ⟨rfl, rfl, rfl, h4, hr4, h7, ?_, ?_, by decide, hr7⟩
  · rw [h7]; decide
  · rw [h7]; decide

/-- C8: after a write of `v` to register 0x0A, which returns 1, a read of register 0x13
returns `(v & 0xFF) | ((v & 0xFF) << 8)`, whatever slot 0x13 held before. -/
theorem C8_write_0a_mirrors_into_13 (dev : gl518sm_t) (v : Nat) :
    ∃ dev1, gl518sm_write dev 0x0a v = some (1, dev1) ∧
      gl518sm_read dev1 0x13 = (v &&& 0xff) ||| ((v &&& 0xff) <<< 8) := by
  have hw : gl518sm_write dev 0x0a v =
      some (1, { dev with regs := Function.update dev.regs 0x13 (v &&& 0xff) }) := by
    simp [gl518sm_write, read_only]
  refine ⟨_, hw, ?_⟩
  have hr := gl518sm_read_fin { dev with regs := Function.update dev.regs 0x13 (v &&& 0xff) } 0x13
  have h2 : ¬ two_byte ((0x13 : Fin 32) : Nat) := by decide
  rw [if_neg h2] at hr
  simp only [Function.update_same] at hr
  rw [Nat.mod_eq_of_lt (dup_lt _ (and_ff_le v))] at hr
  exact hr

/-- C9, evaluated at a failing input: the write of 0x1234 to register 0x0A of the sample
chip returns 1 and stores 0x34 in slot 0x13, but slot 0x0A keeps its reset default 0xDAC5,
and that is what a read of register 0x0A returns afterwards, not 0x1234. -/
theorem C9_write_0a_does_not_store :
    ∃ dev1, gl518sm_write sample_dev 0x0a 0x1234 = some (1, dev1) ∧
      dev1.regs 0x13 = 0x34 ∧
      dev1.regs 0x0a = 0xdac5 ∧
      gl518sm_read dev1 0x0a = 0xdac5 ∧
      gl518sm_read dev1 0x0a ≠ 0x1234 := by
  refine ⟨_, rfl, rfl, rfl, rfl, ?_⟩
  decide

/-- C10: for a register `r` in 0x00 .. 0x1F that is not read-only and is neither 0x0A nor
0x0F, and a 16-bit value `v` (with bit 0x80 clear when `r` is 0x03), the write returns 1,
sets slot `r` to `v & m(r)` with `m(0x03) = 0xFC`, `m(0x11) = 0x7F`, `m(r) = 0xFFFF`
otherwise, and leaves every other slot, the selected-register latch and the remaining
fields unchanged. -/
theorem C10_plain_store (dev : gl518sm_t) (r : Fin 32) (v : Nat) (hv : v < 65536)
    (hro : r.val ∉ [0x00, 0x01, 0x04, 0x07, 0x0d, 0x12, 0x13, 0x14, 0x15])
    (ha : r.val ≠ 0x0a) (hf : r.val ≠ 0x0f) (h3 : r.val = 0x03 → v &&& 0x80 = 0) :
    ∃ dev1, gl518sm_write dev r.val v = some (1, dev1) ∧
      dev1.regs r = v &&& write_mask r.val ∧
      (∀ i : Fin 32, i ≠ r → dev1.regs i = dev.regs i) ∧
      dev1.addr_register = dev.addr_register ∧ dev1.smbus_addr = dev.smbus_addr ∧
      dev1.local_ = dev.local_ ∧ dev1.values = dev.values := by
  have hnro : ¬ read_only r.val := by
    simpa [read_only] using hro
  have hw : gl518sm_write dev r.val v =
      some (1, { dev with regs := Function.update dev.regs r (v &&& write_mask r.val) }) := by
    by_cases e3 : r.val = 0x03
    · have er : r = 0x03 := Fin.ext e3
      rw [e3, er]
      simp [gl518sm_write, read_only, write_mask, h3 e3]
    · by_cases e11 : r.val = 0x11
      · have er : r = 0x11 := Fin.ext e11
        rw [e11, er]
        simp [gl518sm_write, read_only, write_mask]
      · simp [gl518sm_write, hnro, ha, hf, e3, e11, write_mask, and_ffff_of_lt v hv]
  refine ⟨_, hw, ?_, ?_, rfl, rfl, rfl, rfl⟩
  · simp
  · intro i hi
    simp [Function.update_noteq hi]

/-- Instance of C10: value 0x1234 written to register 0x02 of the sample chip. -/
theorem C10_plain_store_witness :
    ((0x1234 < 65536 ∧
      (0x02 : Fin 32).val ∉ [0x00, 0x01, 0x04, 0x07, 0x0d, 0x12, 0x13, 0x14, 0x15] ∧
      (0x02 : Fin 32).val ≠ 0x0a ∧ (0x02 : Fin 32).val ≠ 0x0f ∧
      ((0x02 : Fin 32).val = 0x03 → 0x1234 &&& 0x80 = 0)) ∧
    ∃ dev1, gl518sm_write sample_dev (0x02 : Fin 32).val 0x1234 = some (1, dev1) ∧
      dev1.regs 0x02 = 0x1234 &&& write_mask (0x02 : Fin 32).val ∧
      (∀ i : Fin 32, i ≠ 0x02 → dev1.regs i = sample_dev.regs i) ∧
      dev1.addr_register = sample_dev.addr_register ∧ dev1.smbus_addr = sample_dev.smbus_addr ∧
      dev1.local_ = sample_dev.local_ ∧ dev1.values = sample_dev.values) :=
  ⟨⟨by decide, by decide, by decide, by decide, by decide⟩,
    C10_plain_store sample_dev 0x02 0x1234 (by decide) (by decide) (by decide) (by decide)
      (by decide)⟩

/-- C11, evaluated at a failing input: on the sample chip slot 0x09 holds 0xDAC5; a read of
register 0x29 indexes that slot but takes the `default` branch and returns 0xDFC5, while a
read of register 0x29 & 0x1F = 0x09 returns 0xDAC5.  Likewise, once slot 0x07 holds 0x50A0
(after the write of 0x40 to register 0x0F), a read of 0x27 returns 0xF0A0 and a read of
0x07 returns 0x50A0. -/
theorem C11_read_switches_on_unmasked_register :
    sample_dev.regs 0x09 = 0xdac5 ∧
      gl518sm_read sample_dev 0x29 = 0xdfc5 ∧
      gl518sm_read sample_dev (0x29 &&& 0x1f) = 0xdac5 ∧
      gl518sm_read sample_dev 0x29 ≠ gl518sm_read sample_dev (0x29 &&& 0x1f) ∧
      ∃ dev1, gl518sm_write sample_dev 0x0f 0x40 = some (1, dev1) ∧
        dev1.regs 0x07 = 0x50a0 ∧
        gl518sm_read dev1 0x27 = 0xf0a0 ∧
        gl518sm_read dev1 (0x27 &&& 0x1f) = 0x50a0 := by
  refine ⟨rfl, rfl, rfl, by decide, _, rfl, rfl, rfl, rfl⟩

/-- C12, evaluated at a failing input: the write of 0x55 with register number 0x22 on the
sample chip reaches `dev->regs[0x22]`, a store outside the 32 slots, whereas the write with
the masked number 0x22 & 0x1F = 0x02 stores 0x55 in slot 0x02 and returns 1; and the write
with number 0x20 is not the no-op that the write to the read-only register 0x00 is. -/
theorem C12_write_does_not_mask_register :
    gl518sm_write sample_dev 0x22 0x55 = none ∧
      (∃ dev1, gl518sm_write sample_dev (0x22 &&& 0x1f) 0x55 = some (1, dev1) ∧
        dev1.regs 0x02 = 0x55) ∧
      gl518sm_write sample_dev 0x20 0x55 = none ∧
      gl518sm_write sample_dev (0x20 &&& 0x1f) 0x55 = some (0, sample_dev) := by
  refine ⟨rfl, ⟨_, rfl, rfl⟩, rfl, rfl⟩

/-- C13 as stated fails: on the sample chip (fan 0 at 3000 rpm) the write of 0x80 (bit 7 set,
bit 6 clear) to register 0x0F leaves 40 = clamp(480000 / (3000 * 4), 1, 255) in the high byte
of slot 0x07, not clamp(480000 / 3000, 1, 255) = 160. -/
theorem C13_divisor_is_not_one :
    (0x80 &&& 0x80 ≠ 0 ∧ 0x80 &&& 0x40 = 0) ∧ sample_dev.values.fans 0 = 3000 ∧
      ∃ dev1, gl518sm_write sample_dev 0x0f 0x80 = some (1, dev1) ∧
        dev1.regs 0x07 / 256 = 40 ∧
        rpm_to_reg (sample_dev.values.fans 0) 1 = 160 ∧
        dev1.regs 0x07 / 256 ≠ rpm_to_reg (sample_dev.values.fans 0) 1 := by
  refine ⟨by decide, rfl, _, rfl, rfl, by decide, by decide⟩

/-- C13 amended: for a value `v` with bit 7 set and bit 6 clear, the write to register 0x0F
returns 1 and the high byte of slot 0x07 becomes `clamp(480000 / (r * 4), 1, 255)` for a
non-zero fan-0 speed `r` (these bits select the divisor 2^2 = 4) and 0 for `r = 0`. -/
theorem C13_high_byte_divisor_four (dev : gl518sm_t) (v : Nat)
    (h7 : v &&& 0x80 ≠ 0) (h6 : v &&& 0x40 = 0) :
    ∃ dev1, gl518sm_write dev 0x0f v = some (1, dev1) ∧
      dev1.regs 0x07 / 256 = rpm_to_reg (dev.values.fans 0) 4 ∧
      (dev.values.fans 0 ≠ 0 →
        dev1.regs 0x07 / 256 = max 1 (min (480000 / (dev.values.fans 0 * 4)) 255)) ∧
      (dev.values.fans 0 = 0 → dev1.regs 0x07 / 256 = 0) := by
  have hhi : (Function.update (Function.update dev.regs 0x0f (v &&& 0xf8)) 0x07
      ((rpm_to_reg (dev.values.fans 0) (2 ^ ((v >>> 6) &&& 3)) <<< 8) |||
        rpm_to_reg (dev.values.fans 1) (2 ^ ((v >>> 4) &&& 3)))) 0x07 / 256 =
      rpm_to_reg (dev.values.fans 0) 4 := by
    rw [Function.update_same, pack_div _ _ (rpm_to_reg_le _ _), shr6_of_bit7_not_bit6 v h7 h6]
    norm_num
  refine ⟨_, gl518sm_write_0f dev v, hhi, ?_, ?_⟩
  · intro hr
    rw [hhi]
    simp [rpm_to_reg, hr]
  · intro hr
    rw [hhi]
    simp [rpm_to_reg, hr]

/-- Instance of the amended C13: value 0x80 written to register 0x0F of the sample chip. -/
theorem C13_high_byte_divisor_four_witness :
    (0x80 &&& 0x80 ≠ 0 ∧ 0x80 &&& 0x40 = 0) ∧
      ∃ dev1, gl518sm_write sample_dev 0x0f 0x80 = some (1, dev1) ∧
        dev1.regs 0x07 / 256 = rpm_to_reg (sample_dev.values.fans 0) 4 ∧
        (sample_dev.values.fans 0 ≠ 0 →
          dev1.regs 0x07 / 256 = max 1 (min (480000 / (sample_dev.values.fans 0 * 4)) 255)) ∧
        (sample_dev.values.fans 0 = 0 → dev1.regs 0x07 / 256 = 0) :=
  ⟨⟨by decide, by decide⟩, C13_high_byte_divisor_four sample_dev 0x80 (by decide) (by decide)⟩

/-- C14 as stated fails: on the sample chip the write of 0x12 to the read-only register 0x00
is a no-op, so the read after it returns 0x8080 and not 0x1212; and the write of 0xFF to
register 0x11 stores 0x7F, so the read after it returns 0x7F7F and not 0xFFFF. -/
theorem C14_read_after_write_differs :
    (0x00 ∉ [0x07, 0x08, 0x09, 0x0a, 0x0b, 0x0c] ∧ 0x11 ∉ [0x07, 0x08, 0x09, 0x0a, 0x0b, 0x0c]) ∧
      (∃ dev1, gl518sm_write sample_dev 0x00 0x12 = some (0, dev1) ∧
        gl518sm_read dev1 0x00 = 0x8080 ∧
        gl518sm_read dev1 0x00 ≠ (0x12 &&& 0xff) ||| ((0x12 &&& 0xff) <<< 8)) ∧
      (∃ dev1, gl518sm_write sample_dev 0x11 0xff = some (1, dev1) ∧
        gl518sm_read dev1 0x11 = 0x7f7f ∧
        gl518sm_read dev1 0x11 ≠ (0xff &&& 0xff) ||| ((0xff &&& 0xff) <<< 8)) := by
  refine ⟨by decide, ⟨_, rfl, rfl, by decide⟩, ⟨_, rfl, rfl, by decide⟩⟩

/-- C14 amended: for a register `r` in 0x00 .. 0x1F outside the two-byte set and a value `v`
(at most 0xFF unless `r` is one of the masked registers 0x03, 0x0F, 0x11), the write
succeeds; if `r` is read-only it returns 0 and the read after it returns what the read
before it returned; otherwise it returns 1 and the read after it returns the duplicated
form of `w`, where `w` is `v & 0xFC` for 0x03 with bit 0x80 clear, 0 for 0x03 with bit 0x80
set, `v & 0xF8` for 0x0F, `v & 0x7F` for 0x11 and `v` otherwise. -/
theorem C14_read_after_write (dev : gl518sm_t) (r : Fin 32) (v : Nat)
    (h2 : r.val ∉ [0x07, 0x08, 0x09, 0x0a, 0x0b, 0x0c])
    (hv : r.val ∉ [0x03, 0x0f, 0x11] → v ≤ 0xff) :
    ∃ ret dev1, gl518sm_write dev r.val v = some (ret, dev1) ∧
      (r.val ∈ [0x00, 0x01, 0x04, 0x07, 0x0d, 0x12, 0x13, 0x14, 0x15] →
        ret = 0 ∧ gl518sm_read dev1 r.val = gl518sm_read dev r.val) ∧
      (r.val ∉ [0x00, 0x01, 0x04, 0x07, 0x0d, 0x12, 0x13, 0x14, 0x15] →
        ret = 1 ∧ gl518sm_read dev1 r.val = duplicated (value_after_write r.val v)) := by
  have h2b : ¬ two_byte r.val := by
    simpa [two_byte] using h2
  by_cases hro : read_only r.val
  · have hmem : r.val ∈ [0x00, 0x01, 0x04, 0x07, 0x0d, 0x12, 0x13, 0x14, 0x15] := by
      simpa [read_only] using hro
    refine ⟨0, dev, ?_, fun _ => ⟨rfl, rfl⟩, fun hn => absurd hmem hn⟩
    rw [gl518sm_write_fin, if_pos hro]
  · have hnmem : r.val ∉ [0x00, 0x01, 0x04, 0x07, 0x0d, 0x12, 0x13, 0x14, 0x15] := by
      simpa [read_only] using hro
    have ha : r.val ≠ 0x0a := by
      intro h; apply h2; simp [h]
    obtain ⟨dev1, hw, hslot⟩ := gl518sm_write_slot dev r v hro ha
    refine ⟨1, dev1, hw, fun hm => absurd hm hnmem, fun _ => ⟨rfl, ?_⟩⟩
    have hle : dev1.regs r ≤ 0xff := by
      rw [hslot]; exact value_after_write_le r.val v hv
    rw [gl518sm_read_duplicated dev1 r h2b hle, hslot]

/-- Instance of the amended C14: value 0x5A written to register 0x02 of the sample chip. -/
theorem C14_read_after_write_witness :
    ((0x02 : Fin 32).val ∉ [0x07, 0x08, 0x09, 0x0a, 0x0b, 0x0c] ∧
      ((0x02 : Fin 32).val ∉ [0x03, 0x0f, 0x11] → 0x5a ≤ 0xff)) ∧
    ∃ ret dev1, gl518sm_write sample_dev (0x02 : Fin 32).val 0x5a = some (ret, dev1) ∧
      ((0x02 : Fin 32).val ∈ [0x00, 0x01, 0x04, 0x07, 0x0d, 0x12, 0x13, 0x14, 0x15] →
        ret = 0 ∧
          gl518sm_read dev1 (0x02 : Fin 32).val = gl518sm_read sample_dev (0x02 : Fin 32).val) ∧
      ((0x02 : Fin 32).val ∉ [0x00, 0x01, 0x04, 0x07, 0x0d, 0x12, 0x13, 0x14, 0x15] →
        ret = 1 ∧
          gl518sm_read dev1 (0x02 : Fin 32).val =
            duplicated (value_after_write (0x02 : Fin 32).val 0x5a)) :=
  ⟨⟨by decide, fun _ => by decide⟩,
    C14_read_after_write sample_dev 0x02 0x5a (by decide) (fun _ => by decide)⟩

/-- C15, evaluated at a failing input: register 0x02 is writable, has no side effect and
is outside the two-byte set; after the word write of 0xABCD to it on the sample chip the
read returns 0xEFCD, whereas the duplicated form of the masked value written,
`d(0xABCD & 0xFFFF)`, is 0xCDCD. -/
theorem C15_round_trip_keeps_high_byte :
    ∃ dev1, gl518sm_write sample_dev 0x02 0xabcd = some (1, dev1) ∧
      gl518sm_read dev1 0x02 = 0xefcd ∧
      duplicated (0xabcd &&& write_mask 0x02) = 0xcdcd ∧
      gl518sm_read dev1 0x02 ≠ duplicated (0xabcd &&& write_mask 0x02) := by
  refine ⟨_, rfl, rfl, by decide, by decide⟩

/-- C16 as stated fails: on the sample chip slot 0x13 holds 163; the write of 0x34 to
register 0x0A returns 1 and leaves 0x34 in the read-only slot 0x13. -/
theorem C16_write_0a_changes_read_only_slot :
    sample_dev.regs 0x13 = 163 ∧
      ∃ dev1, gl518sm_write sample_dev 0x0a 0x34 = some (1, dev1) ∧
        dev1.regs 0x13 = 0x34 ∧ dev1.regs 0x13 ≠ sample_dev.regs 0x13 := by
  refine ⟨rfl, _, rfl, rfl, by decide⟩

/-- C16 amended: for a register `r` in 0x00 .. 0x1F and a value `v`, other than a write to
0x03 with bit 0x80 set (which resets the chip), the write succeeds and each of the slots
0x00, 0x01, 0x04, 0x07, 0x0D, 0x12, 0x13, 0x14, 0x15 holds the value it held before, except
slot 0x13 after a write to 0x0A and slot 0x07 after a write to 0x0F. -/
theorem C16_read_only_slots_kept (dev : gl518sm_t) (r : Fin 32) (v : Nat)
    (h3 : r.val = 0x03 → v &&& 0x80 = 0) :
    ∃ ret dev1, gl518sm_write dev r.val v = some (ret, dev1) ∧
      ∀ s : Fin 32, s.val ∈ [0x00, 0x01, 0x04, 0x07, 0x0d, 0x12, 0x13, 0x14, 0x15] →
        (r.val = 0x0a → s ≠ 0x13) → (r.val = 0x0f → s ≠ 0x07) →
        dev1.regs s = dev.regs s := by
  rw [gl518sm_write_fin]
  by_cases hro : read_only r.val
  · rw [if_pos hro]
    exact ⟨0, dev, rfl, fun _ _ _ _ => rfl⟩
  rw [if_neg hro]
  by_cases ha : r.val = 0x0a
  · rw [if_pos ha]
    refine ⟨1, _, rfl, ?_⟩
    intro s _ hs13 _
    simp [Function.update_noteq (hs13 ha)]
  rw [if_neg ha]
  by_cases e3 : r.val = 0x03
  · rw [if_pos e3]
    refine ⟨1, _, rfl, ?_⟩
    intro s hs _ _
    have hs3 : s ≠ 0x03 := by
      intro h; rw [h] at hs; revert hs; decide
    simp [h3 e3, Function.update_noteq hs3]
  rw [if_neg e3]
  by_cases hf : r.val = 0x0f
  · rw [if_pos hf]
    refine ⟨1, _, rfl, ?_⟩
    intro s hs _ hs7
    have hsf : s ≠ 0x0f := by
      intro h; rw [h] at hs; revert hs; decide
    simp [Function.update_noteq (hs7 hf), Function.update_noteq hsf]
  rw [if_neg hf]
  by_cases h11 : r.val = 0x11
  · rw [if_pos h11]
    refine ⟨1, _, rfl, ?_⟩
    intro s hs _ _
    have hs11 : s ≠ 0x11 := by
      intro h; rw [h] at hs; revert hs; decide
    simp [Function.update_noteq hs11]
  · rw [if_neg h11]
    refine ⟨1, _, rfl, ?_⟩
    intro s hs _ _
    have hsr : s ≠ r := by
      intro h; apply hro; rw [← h]; simpa [read_only] using hs
    simp [Function.update_noteq hsr]

/-- Instance of the amended C16: value 0x1234 written to register 0x0A of the sample chip. -/
theorem C16_read_only_slots_kept_witness :
    ((0x0a : Fin 32).val = 0x03 → 0x1234 &&& 0x80 = 0) ∧
    ∃ ret dev1, gl518sm_write sample_dev (0x0a : Fin 32).val 0x1234 = some (ret, dev1) ∧
      ∀ s : Fin 32, s.val ∈ [0x00, 0x01, 0x04, 0x07, 0x0d, 0x12, 0x13, 0x14, 0x15] →
        ((0x0a : Fin 32).val = 0x0a → s ≠ 0x13) → ((0x0a : Fin 32).val = 0x0f → s ≠ 0x07) →
        dev1.regs s = sample_dev.regs s :=
  ⟨fun h => absurd h (by decide),
    C16_read_only_slots_kept sample_dev 0x0a 0x1234 (fun h => absurd h (by decide))⟩

/-- C17: with the sensor readings fixed, every finite sequence of bus transactions whose
writes with command use a command in 0x00 .. 0x1F runs to the end from a freshly reset
chip, and in the state it reaches slot 0x07 is
`(enc(f0, 2^((D >> 6) & 3)) << 8) | enc(f1, 2^((D >> 4) & 3))` for `D` the content of slot
0x0F; the reset state itself has `D = 0xF8` and slot 0x07 `(enc(f0, 8) << 8) | enc(f1, 8)`. -/
theorem C17_fan_register_never_stale (dev0 : gl518sm_t) (addr : Nat) (txns : List smbus_txn)
    (hcmd : ∀ t ∈ txns, cmd_in_range t) :
    (∃ dev, smbus_run addr txns (gl518sm_reset dev0) = some dev ∧
      dev.values = dev0.values ∧
      dev.regs 0x07 =
        ((rpm_to_reg (dev0.values.fans 0) (2 ^ ((dev.regs 0x0f >>> 6) &&& 3)) <<< 8) |||
          rpm_to_reg (dev0.values.fans 1) (2 ^ ((dev.regs 0x0f >>> 4) &&& 3)))) ∧
    (gl518sm_reset dev0).regs 0x0f = 0xf8 ∧
    (gl518sm_reset dev0).regs 0x07 =
      ((rpm_to_reg (dev0.values.fans 0) 8 <<< 8) ||| rpm_to_reg (dev0.values.fans 1) 8) := by
  obtain ⟨dev, hr, hv, hc⟩ :=
    smbus_run_fan_consistent addr txns (gl518sm_reset dev0) hcmd (fan_consistent_reset dev0)
  have hv0 : dev.values = dev0.values := hv
  refine ⟨⟨dev, hr, hv0, ?_⟩, ?_, gl518sm_reset_regs_07 dev0⟩
  · unfold fan_consistent at hc
    rw [hv0] at hc
    exact hc
  · rw [gl518sm_reset_regs]
    rfl

/-- Instance of C17: from the reset sample chip, a word write of 0x40 to register 0x0F, a
word read of register 0x07, a latch write and a byte write of 0x80 to register 0x03. -/
theorem C17_fan_register_never_stale_witness :
    (∀ t ∈ [smbus_txn.write_word_cmd 0x0f 0x40, smbus_txn.read_word_cmd 0x07,
        smbus_txn.write_byte 0x07, smbus_txn.write_byte_cmd 0x03 0x80], cmd_in_range t) ∧
    ((∃ dev, smbus_run 0x2c [smbus_txn.write_word_cmd 0x0f 0x40, smbus_txn.read_word_cmd 0x07,
        smbus_txn.write_byte 0x07, smbus_txn.write_byte_cmd 0x03 0x80]
          (gl518sm_reset sample_dev) = some dev ∧
      dev.values = sample_dev.values ∧
      dev.regs 0x07 =
        ((rpm_to_reg (sample_dev.values.fans 0) (2 ^ ((dev.regs 0x0f >>> 6) &&& 3)) <<< 8) |||
          rpm_to_reg (sample_dev.values.fans 1) (2 ^ ((dev.regs 0x0f >>> 4) &&& 3)))) ∧
    (gl518sm_reset sample_dev).regs 0x0f = 0xf8 ∧
    (gl518sm_reset sample_dev).regs 0x07 =
      ((rpm_to_reg (sample_dev.values.fans 0) 8 <<< 8) |||
        rpm_to_reg (sample_dev.values.fans 1) 8)) :=
  ⟨by simp [cmd_in_range],
    C17_fan_register_never_stale sample_dev 0x2c _ (by simp [cmd_in_range])⟩

/-- C18: the command-less write of `v` sets the selected register to `v` and leaves the 32
slots (and every other field) as they were; the command-less read that follows returns the
low 8 bits of `gl518sm_read(v)`, the same byte as the byte read with command `v`. -/
theorem C18_register_select_latch (dev : gl518sm_t) (addr v : Nat) :
    (gl518sm_smbus_write_byte addr v dev).addr_register = v ∧
      (gl518sm_smbus_write_byte addr v dev).regs = dev.regs ∧
      (gl518sm_smbus_write_byte addr v dev).values = dev.values ∧
      (gl518sm_smbus_write_byte addr v dev).smbus_addr = dev.smbus_addr ∧
      gl518sm_smbus_read_byte addr (gl518sm_smbus_write_byte addr v dev) =
        gl518sm_read dev v % 256 ∧
      gl518sm_smbus_read_byte addr (gl518sm_smbus_write_byte addr v dev) =
        gl518sm_smbus_read_byte_cmd addr v (gl518sm_smbus_write_byte addr v dev) ∧
      gl518sm_smbus_read_byte addr (gl518sm_smbus_write_byte addr v dev) =
        gl518sm_smbus_read_byte_cmd addr v dev :=
  ⟨rfl, rfl, rfl, rfl, rfl, rfl, rfl⟩

/-- C19, evaluated at a failing input: the word write and the byte write with command 0x20
on the sample chip reach the `default` branch of `gl518sm_write` and store to
`dev->regs[0x20]`, outside the 32 slots, so no state with an unchanged latch results;
with the in-range command 0x03 and value 0x80 (reset) the latch is kept. -/
theorem C19_write_with_command_0x20_leaves_array :
    gl518sm_smbus_write_word_cmd 0x2c 0x20 0x2d05 sample_dev = none ∧
      gl518sm_smbus_write_byte_cmd 0x2c 0x20 0x05 sample_dev = none ∧
      ∃ dev1, gl518sm_smbus_write_byte_cmd 0x2c 0x03 0x80 sample_dev = some dev1 ∧
        dev1.addr_register = sample_dev.addr_register := by
  refine ⟨rfl, rfl, _, rfl, rfl⟩

/-- C20: for a chip registered on the bus exactly at its recorded address `a`, after
`gl518sm_remap(b)` the set of addresses at which it is registered is `{b}` when `b < 0x80`
and empty otherwise, and the recorded address is `b`; so a chip bound at 0x2C and remapped
to 0x2D is registered at 0x2D and not at 0x2C. -/
theorem C20_remap_rebinds (dev : gl518sm_t) (a b : Nat) (ha : dev.smbus_addr = a) :
    (gl518sm_remap {a} dev b).1 = (if b < 0x80 then {b} else ∅) ∧
      (gl518sm_remap {a} dev b).2.smbus_addr = b ∧
      (gl518sm_remap {a} dev b).2.regs = dev.regs ∧
      (∀ x, x ∈ (gl518sm_remap {a} dev b).1 ↔ (b < 0x80 ∧ x = b)) ∧
      (a = 0x2c → b = 0x2d →
        0x2d ∈ (gl518sm_remap {a} dev b).1 ∧ 0x2c ∉ (gl518sm_remap {a} dev b).1) := by
  have hbus : (gl518sm_remap {a} dev b).1 = (if b < 0x80 then {b} else ∅) := by
    simp [gl518sm_remap, smbus_removehandler, smbus_sethandler, ha, smbus_t]
  refine ⟨hbus, rfl, rfl, ?_, ?_⟩
  · intro x
    rw [hbus]
    by_cases hb : b < 0x80
    · simp [hb]
    · simp [hb]
  · intro ea eb
    rw [hbus, eb]
    simp

/-- Instance of C20: the sample chip, bound at 0x2C by `gl518sm_init`, remapped to 0x2D. -/
theorem C20_remap_rebinds_witness :
    sample_dev.smbus_addr = 0x2c ∧
      ((gl518sm_remap {0x2c} sample_dev 0x2d).1 = (if 0x2d < 0x80 then {0x2d} else ∅) ∧
      (gl518sm_remap {0x2c} sample_dev 0x2d).2.smbus_addr = 0x2d ∧
      (gl518sm_remap {0x2c} sample_dev 0x2d).2.regs = sample_dev.regs ∧
      (∀ x, x ∈ (gl518sm_remap {0x2c} sample_dev 0x2d).1 ↔ (0x2d < 0x80 ∧ x = 0x2d)) ∧
      (0x2c = 0x2c → 0x2d = 0x2d →
        0x2d ∈ (gl518sm_remap {0x2c} sample_dev 0x2d).1 ∧
          0x2c ∉ (gl518sm_remap {0x2c} sample_dev 0x2d).1)) :=
  ⟨rfl, C20_remap_rebinds sample_dev 0x2c 0x2d rfl⟩

/-- C21, evaluated at a failing input: `gl518sm_close` calls `gl518sm_remap(dev, 0)`, and 0
is below 0x80, so for the sample chip bound at 0x2C (and likewise for one bound at 0x2D)
the handlers are removed from the old address and registered again at address 0: after the
teardown the set of registered addresses is `{0}`, not empty. -/
theorem C21_close_rebinds_at_address_zero :
    sample_dev.smbus_addr = 0x2c ∧
      gl518sm_close {0x2c} sample_dev = {0} ∧
      0 ∈ gl518sm_close {0x2c} sample_dev ∧
      (gl518sm_remap {0x2c} sample_dev 0).2.smbus_addr = 0 ∧
      ¬ (0x80 ≤ (gl518sm_remap {0x2c} sample_dev 0).2.smbus_addr) ∧
      gl518sm_close {0x2d} (gl518sm_init ∅ gl518sm_2d_device_local 2000).2 = {0} := by
  refine ⟨rfl, by decide, by decide, rfl, by decide, by decide⟩

/-- C22: when the three voltage readings encode to at most 242, every finite sequence of
byte-wide traffic (command-less writes, reads, byte writes with a command in 0x00 .. 0x1F)
runs to the end from a freshly reset chip, and in the state it reaches every slot outside
the two-byte set 0x07 .. 0x0C holds at most 0xFF, the word read of such a register returns
`low | (low << 8)` and the byte read returns the stored value.  The bound is tight: with
`(v2 / 19) & 0xFF = 243` (as for 4617 mV) the reset default of slot 0x0D is 0x100 and the
word read of register 0x0D returns 0x0100. -/
theorem C22_byte_traffic_invariant (dev0 : gl518sm_t) (addr : Nat) (txns : List smbus_txn)
    (hfit : voltages_fit dev0.values) (hbyte : ∀ t ∈ txns, byte_traffic t) :
    (∃ dev, smbus_run addr txns (gl518sm_reset dev0) = some dev ∧
      ∀ r : Fin 32, r.val ∉ [0x07, 0x08, 0x09, 0x0a, 0x0b, 0x0c] →
        dev.regs r ≤ 0xff ∧
        gl518sm_smbus_read_word_cmd addr r.val dev =
          (dev.regs r &&& 0xff) ||| ((dev.regs r &&& 0xff) <<< 8) ∧
        gl518sm_smbus_read_byte_cmd addr r.val dev = dev.regs r) ∧
    ((4617 / 19) &&& 0xff = 243 ∧
      ∀ hot : gl518sm_t, (hot.values.voltages 2 / 19) &&& 0xff = 243 →
        (gl518sm_reset hot).regs 0x0d = 0x100 ∧
        gl518sm_smbus_read_word_cmd addr 0x0d (gl518sm_reset hot) = 0x0100) := by
  constructor
  · obtain ⟨dev, hr, _, hb⟩ :=
      smbus_run_byte_regs addr txns (gl518sm_reset dev0) hbyte hfit (byte_regs_reset dev0 hfit)
    refine ⟨dev, hr, ?_⟩
    intro r h2
    have h2b : ¬ two_byte r.val := by
      simpa [two_byte] using h2
    have hle : dev.regs r ≤ 0xff := hb r h2
    have hword : gl518sm_read dev r.val = duplicated (dev.regs r) :=
      gl518sm_read_duplicated dev r h2b hle
    refine ⟨hle, hword, ?_⟩
    show gl518sm_read dev r.val % 256 = dev.regs r
    rw [gl518sm_read_fin, if_neg h2b, Nat.mod_eq_of_lt (dup_lt _ hle)]
    exact dup_mod_256 _ hle
  · refine ⟨by decide, ?_⟩
    intro hot h243
    have hslot : (gl518sm_reset hot).regs 0x0d = 0x100 := by
      have h : (gl518sm_reset hot).regs 0x0d = 13 + ((hot.values.voltages 2 / 19) &&& 0xff) := by
        rw [gl518sm_reset_regs]
        rfl
      rw [h, h243]
    refine ⟨hslot, ?_⟩
    have hr := gl518sm_read_fin (gl518sm_reset hot) 0x0d
    rw [hslot, if_neg (by decide : ¬ two_byte ((0x0d : Fin 32) : Nat))] at hr
    exact hr

/-- Instance of C22: from the reset sample chip (voltages 2000, 2862 and 3300 mV), a latch
write, a byte write of 0xFF to register 0x02, a byte write of 0x80 to register 0x03 (reset)
and a word read of register 0x0D. -/
theorem C22_byte_traffic_invariant_witness :
    (voltages_fit sample_dev.values ∧
      ∀ t ∈ [smbus_txn.write_byte 0x0d, smbus_txn.write_byte_cmd 0x02 0xff,
        smbus_txn.write_byte_cmd 0x03 0x80, smbus_txn.read_word_cmd 0x0d], byte_traffic t) ∧
    ((∃ dev, smbus_run 0x2c [smbus_txn.write_byte 0x0d, smbus_txn.write_byte_cmd 0x02 0xff,
        smbus_txn.write_byte_cmd 0x03 0x80, smbus_txn.read_word_cmd 0x0d]
          (gl518sm_reset sample_dev) = some dev ∧
      ∀ r : Fin 32, r.val ∉ [0x07, 0x08, 0x09, 0x0a, 0x0b, 0x0c] →
        dev.regs r ≤ 0xff ∧
        gl518sm_smbus_read_word_cmd 0x2c r.val dev =
          (dev.regs r &&& 0xff) ||| ((dev.regs r &&& 0xff) <<< 8) ∧
        gl518sm_smbus_read_byte_cmd 0x2c r.val dev = dev.regs r) ∧
    ((4617 / 19) &&& 0xff = 243 ∧
      ∀ hot : gl518sm_t, (hot.values.voltages 2 / 19) &&& 0xff = 243 →
        (gl518sm_reset hot).regs 0x0d = 0x100 ∧
        gl518sm_smbus_read_word_cmd 0x2c 0x0d (gl518sm_reset hot) = 0x0100)) :=
  ⟨⟨by decide, by simp [byte_traffic]⟩,
    C22_byte_traffic_invariant sample_dev 0x2c _ (by decide) (by simp [byte_traffic])⟩

end GL518SM
